import Mathlib

/-!
Verification of the pygreenfoot core (actor positioning, world dispatch,
timestep gate, registry queries and scrollbar geometry), shallowly embedded
from `src/pygreenfoot/actor.py`, `src/pygreenfoot/world.py`,
`src/pygreenfoot/application.py` and `src/pygreenfoot/math_helper.py`.

Cell coordinates are Python ints, modelled as `ℤ`; wall-clock times and the
scrollbar fractions are Python floats, modelled as `ℚ`.
-/

namespace PyGreenfoot

/-- `math_helper.limit_value(value, min_, max_)`:
`if value < min_: return min_` / `elif value > max_: return max_` / `return value`. -/
def limit_value (value min_ max_ : ℤ) : ℤ :=
  if value < min_ then min_
  else if max_ < value then max_
  else value

/-- The fields of a `World` that `Actor.__check_boundary` consults:
`world.width`, `world.height` (cells) and `world.world_bounding`. -/
structure WorldCfg where
  width : ℤ
  height : ℤ
  world_bounding : Bool
deriving DecidableEq

/-- `Actor.__check_boundary(self)`.  `self.get_world()` returns
`Application.get_app().current_world`; when no current world is set that
property raises `ValueError`, which `__check_boundary` catches and returns,
leaving the raw position untouched (modelled by the `none` branch).  When a
current world exists and its `world_bounding` is true, both coordinates are
clamped with `limit_value` to `[0, width-1]` × `[0, height-1]`. -/
def check_boundary (current_world : Option WorldCfg) (pos : ℤ × ℤ) : ℤ × ℤ :=
  match current_world with
  | none => pos
  | some w =>
    if w.world_bounding then
      (limit_value pos.1 0 (w.width - 1), limit_value pos.2 0 (w.height - 1))
    else pos

/-- `Actor.set_position(self, x, y)`: `self.__pos = [x, y]` followed by
`self.__check_boundary()`. -/
def set_position (current_world : Option WorldCfg) (x y : ℤ) : ℤ × ℤ :=
  check_boundary current_world (x, y)

/-- The `Actor.x` setter: `self.__pos[0] = value; self.__check_boundary()`. -/
def set_x (current_world : Option WorldCfg) (pos : ℤ × ℤ) (value : ℤ) : ℤ × ℤ :=
  check_boundary current_world (value, pos.2)

/-- The `Actor.y` setter: `self.__pos[1] = value; self.__check_boundary()`. -/
def set_y (current_world : Option WorldCfg) (pos : ℤ × ℤ) (value : ℤ) : ℤ × ℤ :=
  check_boundary current_world (pos.1, value)

/-- `Actor.move(self, steps)`:
`self.x += round(steps * cos(radians(self.rotation)))` then
`self.y += round(steps * sin(radians(self.rotation)))`.
Each augmented assignment first reads the property (whose getter runs
`__check_boundary` before returning the stored coordinate) and then runs the
setter (which clamps again).  The two rounded trigonometric deltas are
abstracted as arbitrary integers `dx`, `dy`: the claims about `move` concern
only the clamping of the stored position, which holds for every integer
delta the rounding can produce. -/
def move (current_world : Option WorldCfg) (pos : ℤ × ℤ) (dx dy : ℤ) : ℤ × ℤ :=
  let p0 := check_boundary current_world pos
  let p1 := set_x current_world p0 (p0.1 + dx)
  let p2 := check_boundary current_world p1
  set_y current_world p2 (p2.2 + dy)

/-- The position effect of `World.add_to_world(self, game_object, x, y)`:
after registering the actor it calls `game_object.set_position(x, y)`
(the registry insertion and the `on_world_add` hook do not touch the
position and are modelled separately for the dispatch claims). -/
def add_to_world (current_world : Option WorldCfg) (x y : ℤ) : ℤ × ℤ :=
  set_position current_world x y

/-- The spec's bounding invariant for a stored position:
`0 ≤ x < width` and `0 ≤ y < height`. -/
def in_bounds (w : WorldCfg) (pos : ℤ × ℤ) : Prop :=
  0 ≤ pos.1 ∧ pos.1 < w.width ∧ 0 ≤ pos.2 ∧ pos.2 < w.height

lemma limit_value_mem (v lo hi : ℤ) (h : lo ≤ hi) :
    lo ≤ limit_value v lo hi ∧ limit_value v lo hi ≤ hi := by
  unfold limit_value
  split
  · exact ⟨le_refl _, h⟩
  · split
    · exact ⟨h, le_refl _⟩
    · omega

lemma check_boundary_in_bounds (w : WorldCfg) (hb : w.world_bounding = true)
    (hw : 0 < w.width) (hh : 0 < w.height) (pos : ℤ × ℤ) :
    in_bounds w (check_boundary (some w) pos) := by
  have hx := limit_value_mem pos.1 0 (w.width - 1) (by omega)
  have hy := limit_value_mem pos.2 0 (w.height - 1) (by omega)
  simp only [check_boundary, hb, if_true, in_bounds]
  exact ⟨hx.1, by omega, hy.1, by omega⟩

/-- C1: with the actor's world current as the application's world,
`world_bounding = true` and positive dimensions, every position mutation
(`set_position`, the `x`/`y` setters, `move`, and `add_to_world`) leaves the
stored position inside `[0, width) × [0, height)` — the clamp happens on the
write itself, so the stored value is already clamped. -/
theorem position_mutations_stay_in_bounds (w : WorldCfg)
    (hb : w.world_bounding = true) (hw : 0 < w.width) (hh : 0 < w.height) :
    (∀ x y, in_bounds w (set_position (some w) x y)) ∧
    (∀ pos v, in_bounds w (set_x (some w) pos v)) ∧
    (∀ pos v, in_bounds w (set_y (some w) pos v)) ∧
    (∀ pos dx dy, in_bounds w (move (some w) pos dx dy)) ∧
    (∀ x y, in_bounds w (add_to_world (some w) x y)) := by
  refine ⟨fun x y => ?_, fun pos v => ?_, fun pos v => ?_,
    fun pos dx dy => ?_, fun x y => ?_⟩
  · exact check_boundary_in_bounds w hb hw hh _
  · exact check_boundary_in_bounds w hb hw hh _
  · exact check_boundary_in_bounds w hb hw hh _
  · exact check_boundary_in_bounds w hb hw hh _
  · exact check_boundary_in_bounds w hb hw hh _

/-- C1 witness: Scenario A — a 10×10 world with `world_bounding = true`;
adding an actor at `(15, 4)` leaves it in bounds, and concretely at `(9, 4)`
(clamped to `width - 1`). -/
theorem position_mutations_stay_in_bounds_witness :
    in_bounds ⟨10, 10, true⟩ (add_to_world (some ⟨10, 10, true⟩) 15 4) ∧
    add_to_world (some ⟨10, 10, true⟩) 15 4 = (9, 4) :=
  ⟨(position_mutations_stay_in_bounds ⟨10, 10, true⟩ rfl (by decide)
      (by decide)).2.2.2.2 15 4, by decide⟩

/-- C10: when the application has no current world, every position write
stores the raw coordinates unchanged and raises no error (the `ValueError`
from `current_world` is caught inside `__check_boundary`, modelled by the
total `none` branch); when a current world is set, the clamp uses that
current world's dimensions — concretely, an actor added to a 10×10 bounding
world but written while a 5×5 bounding world is current is clamped to the
5×5 bounds (`(7,7) ↦ (4,4)`), while the 10×10 world the actor was added to
would have left `(7,7)` unchanged. -/
theorem clamp_uses_current_world :
    (∀ x y, set_position none x y = (x, y)) ∧
    (∀ pos v, set_x none pos v = (v, pos.2)) ∧
    (∀ pos v, set_y none pos v = (pos.1, v)) ∧
    set_position (some ⟨5, 5, true⟩) 7 7 = (4, 4) ∧
    check_boundary (some ⟨10, 10, true⟩) (7, 7) = (7, 7) := by
  refine ⟨fun x y => rfl, fun pos v => rfl, fun pos v => rfl, by decide, by decide⟩

/-! ### World timestep gate and pause handling (`world.py`) -/

/-- The timing-relevant state of a `World`: `self.running`,
`self.world_speed` (minimum seconds between simulated frames) and
`self.__last_time` (the timestamp recorded after the last executed frame). -/
structure WorldClock where
  running : Bool
  world_speed : ℚ
  last_time : ℚ
deriving DecidableEq

/-- `World._check_world_time(self)`: `time() >= self.world_speed + self.__last_time`,
with the current wall-clock reading passed in as `now`. -/
def check_world_time (w : WorldClock) (now : ℚ) : Bool :=
  decide (w.world_speed + w.last_time ≤ now)

/-- `World._calc_frame(self)`:
`if self.running and self._check_world_time(): self.__act_cycle(); self.repaint(); self.__last_time = time()`
`elif not self.running and self.__app.get_key_states(keys.K_SPACE)[0]: self.running = True`.
`now` is the `time()` reading inside `_check_world_time`; `after` is the
second `time()` reading stored into `__last_time` after the act cycle and
repaint have run; `space_pressed` is the polled state of the space key.
The returned boolean records whether the act cycle and repaint executed. -/
def calc_frame (w : WorldClock) (now after : ℚ) (space_pressed : Bool) :
    WorldClock × Bool :=
  if w.running && check_world_time w now then
    ({ w with last_time := after }, true)
  else if !w.running && space_pressed then
    ({ w with running := true }, false)
  else
    (w, false)

/-- C3: for a running world, `_calc_frame` performs the act cycle and
repaint exactly when the elapsed wall-clock time since the last executed
frame is at least `world_speed`; when `elapsed < world_speed` it returns
with the state completely unchanged and without acting or repainting. -/
theorem calc_frame_gate (w : WorldClock) (now after : ℚ) (sp : Bool)
    (hr : w.running = true) :
    ((calc_frame w now after sp).2 = true ↔ w.world_speed ≤ now - w.last_time) ∧
    (now - w.last_time < w.world_speed → calc_frame w now after sp = (w, false)) := by
  unfold calc_frame check_world_time
  rw [hr]
  simp only [Bool.not_true, Bool.false_and, Bool.true_and, Bool.false_eq_true,
    if_false, decide_eq_true_eq]
  by_cases hg : w.world_speed + w.last_time ≤ now
  · rw [if_pos hg]
    exact ⟨⟨fun _ => by linarith, fun _ => rfl⟩, fun h => absurd hg (by linarith)⟩
  · rw [if_neg hg]
    exact ⟨⟨fun h => by simp at h, fun h => absurd (by linarith : w.world_speed + w.last_time ≤ now) hg⟩,
      fun _ => rfl⟩

/-- C3 witness: Scenario C's gated call — `world_speed = 0.1`, last executed
frame at time `0`, a step at time `0.05` performs no act/repaint and leaves
the state unchanged; and the gate condition is exactly `0.1 ≤ elapsed`. -/
theorem calc_frame_gate_witness :
    ((calc_frame ⟨true, 1/10, 0⟩ (1/20) (1/20) false).2 = true ↔
      (1/10 : ℚ) ≤ 1/20 - 0) ∧
    calc_frame ⟨true, 1/10, 0⟩ (1/20) (1/20) false = (⟨true, 1/10, 0⟩, false) :=
  ⟨(calc_frame_gate ⟨true, 1/10, 0⟩ (1/20) (1/20) false rfl).1,
   (calc_frame_gate ⟨true, 1/10, 0⟩ (1/20) (1/20) false rfl).2 (by norm_num)⟩

/-- C7 counterexample: a paused world (`running = false`, `world_speed = 0`,
`last_time = 0`) stepped at time `1` with the space key pressed transitions
to `running = true`, the timestep gate is due, and yet the same call does
*not* execute the act/repaint cycle — refuting the claim that the resuming
step falls through to the act cycle. -/
theorem resume_does_not_act_counterexample :
    (calc_frame ⟨false, 0, 0⟩ 1 1 true).1.running = true ∧
    check_world_time ⟨false, 0, 0⟩ 1 = true ∧
    (calc_frame ⟨false, 0, 0⟩ 1 1 true).2 = false := by
  refine ⟨?_, ?_, ?_⟩ <;>
    simp [calc_frame, check_world_time, show (0 : ℚ) + 0 ≤ 1 by norm_num]

/-- C7 amended: when the world is paused, a step with the resume input
(the space key) pressed sets `running := true` but performs no act/repaint
in that same call (the cycle only runs from the next step on, subject to
the gate); a step without the resume input leaves the state unchanged and
performs no act/repaint. -/
theorem paused_step_resumes_without_acting (w : WorldClock) (now after : ℚ)
    (hr : w.running = false) :
    calc_frame w now after true = ({ w with running := true }, false) ∧
    calc_frame w now after false = (w, false) := by
  unfold calc_frame
  rw [hr]
  simp

/-- C7 amended witness: the paused world `⟨false, 0, 0⟩` stepped at time `1`
resumes without acting when space is pressed, and is untouched otherwise. -/
theorem paused_step_resumes_without_acting_witness :
    calc_frame ⟨false, 0, 0⟩ 1 1 true = (⟨true, 0, 0⟩, false) ∧
    calc_frame ⟨false, 0, 0⟩ 1 1 false = (⟨false, 0, 0⟩, false) :=
  paused_step_resumes_without_acting ⟨false, 0, 0⟩ 1 1 rfl

/-! ### Actor registry, act-cycle dispatch and removal (`world.py`)

`World.__objects` is a `DefaultDict[Type[Actor], Set[Actor]]`.  It is
modelled as an association list from kind identifiers (`Nat`) to the list of
entries registered under exactly that kind; the `DefaultDict` access
`self.__objects[k]` for a missing key yields the empty set, modelled by
`lookup_kind` returning `[]`. -/

/-- The read side of the `DefaultDict` access `self.__objects[k]`:
the set registered under exactly the concrete kind `k`, empty when the kind
has no entry. -/
def lookup_kind (objects : List (Nat × List α)) (k : Nat) : List α :=
  match objects.find? (fun p => p.1 == k) with
  | some p => p.2
  | none => []

/-- One invocation event of the act cycle: the world's own `act()` hook, or
`game_object.act()` on the actor with the given identity. -/
inductive ActEvent
  | world_act
  | actor_act (id : Nat)
deriving DecidableEq

/-- `World.__act_cycle(self)`: first `self.act()`, then
`for object_type in self.__act_order: for game_object in self.__objects[object_type]: game_object.act()`,
then `for object_type in set(self.__objects) - done: for game_object in self.__objects[object_type]: game_object.act()`.
`rest_order` is the iteration order Python happens to use over the key set
`set(self.__objects) - done` (the kinds with registered entries that do not
appear in `act_order`); that order is unspecified, so it is a parameter.
The function returns the sequence of invocation events. -/
def act_cycle (objects : List (Nat × List Nat)) (act_order rest_order : List Nat) :
    List ActEvent :=
  ActEvent.world_act ::
    (act_order ++ rest_order).flatMap
      (fun k => (lookup_kind objects k).map ActEvent.actor_act)

/-- C2: with a registry holding the `Wall` actors `ws`, the `Player` actors
`ps` and the unordered-kind actors `os` under three distinct kinds, and
`act_order = [Wall, Player]`, the act cycle runs the world's own hook
first, then every `Wall` actor, then every `Player` actor, and only then
the actors of the kind not listed in `act_order`. -/
theorem act_cycle_order (wallK playerK otherK : Nat) (ws ps os : List Nat)
    (h1 : wallK ≠ playerK) (h2 : otherK ≠ wallK) (h3 : otherK ≠ playerK) :
    act_cycle [(wallK, ws), (playerK, ps), (otherK, os)] [wallK, playerK] [otherK]
      = ActEvent.world_act ::
        (ws.map ActEvent.actor_act ++ ps.map ActEvent.actor_act ++
          os.map ActEvent.actor_act) := by
  have e1 : lookup_kind [(wallK, ws), (playerK, ps), (otherK, os)] wallK = ws := by
    simp [lookup_kind, List.find?]
  have e2 : lookup_kind [(wallK, ws), (playerK, ps), (otherK, os)] playerK = ps := by
    simp [lookup_kind, List.find?, beq_eq_false_iff_ne.mpr h1]
  have e3 : lookup_kind [(wallK, ws), (playerK, ps), (otherK, os)] otherK = os := by
    simp [lookup_kind, List.find?, beq_eq_false_iff_ne.mpr (Ne.symm h2),
      beq_eq_false_iff_ne.mpr (Ne.symm h3)]
  simp [act_cycle, e1, e2, e3]

/-- C2 witness: Scenario B with kinds `Wall = 0`, `Player = 1`, an
unordered kind `2`, one `Wall` actor `10`, one `Player` actor `11` and one
unordered actor `12`: the trace is the world hook, then `Wall.act()`, then
`Player.act()`, then the unordered actor. -/
theorem act_cycle_order_witness :
    act_cycle [(0, [10]), (1, [11]), (2, [12])] [0, 1] [2]
      = ActEvent.world_act ::
        ([10].map ActEvent.actor_act ++ [11].map ActEvent.actor_act ++
          [12].map ActEvent.actor_act) :=
  act_cycle_order 0 1 2 [10] [11] [12] (by decide) (by decide) (by decide)

/-- Replacing the set stored under kind `k` (the write side of
`self.__objects[k]`); a `DefaultDict` creates the entry when absent. -/
def update_kind (objects : List (Nat × List α)) (k : Nat) (s : List α) :
    List (Nat × List α) :=
  match objects with
  | [] => [(k, s)]
  | p :: rest => if p.1 = k then (k, s) :: rest else p :: update_kind rest k s

/-- `World.remove_from_world` for a single actor:
`actor.on_world_remove()` followed by `self.__objects[type(actor)].remove(actor)`.
The hook runs unconditionally before the set lookup; Python's
`set.remove` raises `KeyError` when the element is absent (modelled by
`none` in the first component).  The second component counts the
`on_world_remove` invocations so far. -/
def remove_from_world (objects : List (Nat × List Nat)) (kind actor : Nat)
    (hook_calls : Nat) : Option (List (Nat × List Nat)) × Nat :=
  let hook_calls := hook_calls + 1
  let s := lookup_kind objects kind
  if actor ∈ s then
    (some (update_kind objects kind (s.erase actor)), hook_calls)
  else
    (none, hook_calls)

/-- C6 counterexample: a world with the single actor `7` of kind `0`.  The
first `remove_from_world` succeeds with one hook invocation; calling it a
second time raises a `KeyError`-kind error *and still invokes
`on_world_remove` a second time* (the hook count reaches `2`), refuting the
claim that the second call does not invoke the world-remove hook again. -/
theorem remove_twice_invokes_hook_twice :
    remove_from_world [(0, [7])] 0 7 0 = (some [(0, [])], 1) ∧
    remove_from_world [(0, [])] 0 7 1 = (none, 2) := by
  refine ⟨by decide, by decide⟩

/-- C6 amended: `on_world_remove` is invoked unconditionally on every
`remove_from_world` call — once per call, before the membership lookup —
so calling remove twice on the same actor invokes the hook twice, the
second call failing with a `KeyError`-kind error only after that second
hook invocation. -/
theorem remove_hook_runs_unconditionally (objects : List (Nat × List Nat))
    (kind actor h : Nat) :
    (remove_from_world objects kind actor h).2 = h + 1 ∧
    (actor ∉ lookup_kind objects kind →
      (remove_from_world objects kind actor h).1 = none) := by
  unfold remove_from_world
  by_cases hm : actor ∈ lookup_kind objects kind
  · rw [if_pos hm]
    exact ⟨rfl, fun hn => absurd hm hn⟩
  · rw [if_neg hm]
    exact ⟨rfl, fun _ => rfl⟩

/-- C6 amended witness: on the second removal of actor `7` (now absent) the
hook count still increments from `1` to `2` and the call errors. -/
theorem remove_hook_runs_unconditionally_witness :
    (remove_from_world [(0, [])] 0 7 1).2 = 2 ∧
    (remove_from_world [(0, [])] 0 7 1).1 = none :=
  ⟨(remove_hook_runs_unconditionally [(0, [])] 0 7 1).1,
   (remove_hook_runs_unconditionally [(0, [])] 0 7 1).2 (by decide)⟩

/-! ### Polymorphic kind queries (`World.get_actors_generator`, `World._get_subclasses`) -/

/-- A node of the runtime class hierarchy below an actor kind: the kind's
identifier together with the trees of its direct subclasses
(`type_.__subclasses__()`).  Every node stands for an actor kind, so the
`issubclass(subclass, Actor)` filter in `_get_subclasses` is always
satisfied. -/
inductive KindTree
  | node (kind : Nat) (subs : List KindTree)

mutual

/-- `World._get_subclasses(self, type_)`: `yield type_`, then
`for subclass in type_.__subclasses__(): yield from self._get_subclasses(subclass)`. -/
def get_subclasses : KindTree → List Nat
  | .node k subs => k :: get_subclasses_list subs

/-- The inner `for subclass in type_.__subclasses__()` loop of
`_get_subclasses`, one recursive `yield from` per direct subclass. -/
def get_subclasses_list : List KindTree → List Nat
  | [] => []
  | t :: ts => get_subclasses t ++ get_subclasses_list ts

end

/-- `World.get_actors_generator(self, type_)`:
`if type_ is None or type_ == Actor: for actor_set in self.__objects.values(): yield from actor_set`
`else: for base in self._get_subclasses(type_): yield from self.__objects[base]`.
`none` models both the `None` argument and the root class `Actor` (the two
are treated identically by the code). -/
def get_actors_generator (objects : List (Nat × List α)) :
    Option KindTree → List α
  | none => objects.flatMap (fun p => p.2)
  | some t => (get_subclasses t).flatMap (lookup_kind objects)

lemma mem_lookup_kind (objects : List (Nat × List α)) (k : Nat) (a : α)
    (hnd : (objects.map Prod.fst).Nodup) :
    a ∈ lookup_kind objects k ↔ ∃ s, (k, s) ∈ objects ∧ a ∈ s := by
  induction objects with
  | nil => simp [lookup_kind]
  | cons p rest ih =>
    obtain ⟨kp, sp⟩ := p
    simp only [List.map_cons, List.nodup_cons] at hnd
    by_cases hk : kp = k
    · subst hk
      have hfind : lookup_kind ((kp, sp) :: rest) kp = sp := by
        simp [lookup_kind, List.find?]
      rw [hfind]
      constructor
      · intro ha
        exact ⟨sp, List.mem_cons_self _ _, ha⟩
      · rintro ⟨s, hs, ha⟩
        rcases List.mem_cons.mp hs with h | h
        · injection h with h1 h2
          subst h2
          exact ha
        · exact absurd (by simpa using List.mem_map_of_mem Prod.fst h) hnd.1
    · have hfind : lookup_kind ((kp, sp) :: rest) k = lookup_kind rest k := by
        simp [lookup_kind, List.find?, beq_eq_false_iff_ne.mpr hk]
      rw [hfind, ih hnd.2]
      constructor
      · rintro ⟨s, hs, ha⟩
        exact ⟨s, List.mem_cons_of_mem _ hs, ha⟩
      · rintro ⟨s, hs, ha⟩
        rcases List.mem_cons.mp hs with h | h
        · injection h with h1 h2
          exact absurd h1.symm hk
        · exact ⟨s, h, ha⟩

/-- C4: with each kind registered at most once (Python dict keys are
unique), querying by a kind `K` returns exactly the actors registered under
`K` or under one of its subkinds — and no others — while querying with
`None` returns every registered actor of every kind. -/
theorem query_by_kind_polymorphic (objects : List (Nat × List Nat))
    (t : KindTree) (a : Nat) (hnd : (objects.map Prod.fst).Nodup) :
    (a ∈ get_actors_generator objects (some t) ↔
      ∃ k s, (k, s) ∈ objects ∧ k ∈ get_subclasses t ∧ a ∈ s) ∧
    (a ∈ get_actors_generator objects none ↔ ∃ k s, (k, s) ∈ objects ∧ a ∈ s) := by
  constructor
  · simp only [get_actors_generator, List.mem_flatMap]
    constructor
    · rintro ⟨k, hk, ha⟩
      obtain ⟨s, hs, has⟩ := (mem_lookup_kind objects k a hnd).mp ha
      exact ⟨k, s, hs, hk, has⟩
    · rintro ⟨k, s, hs, hk, has⟩
      exact ⟨k, hk, (mem_lookup_kind objects k a hnd).mpr ⟨s, hs, has⟩⟩
  · simp only [get_actors_generator, List.mem_flatMap]
    constructor
    · rintro ⟨p, hp, ha⟩
      exact ⟨p.1, p.2, hp, ha⟩
    · rintro ⟨k, s, hs, ha⟩
      exact ⟨(k, s), hs, ha⟩

/-- C4 witness: kind `0` with registered subkind `2` (and an unrelated kind
`5`): querying by kind `0` sees actor `1` (registered under `0`) and actor
`3` (registered under the subkind `2`) but not actor `9`; querying with
`None` sees everything. -/
theorem query_by_kind_polymorphic_witness :
    ((3 ∈ get_actors_generator [(0, [1]), (2, [3]), (5, [9])]
        (some (KindTree.node 0 [KindTree.node 2 []])) ↔
      ∃ k s, (k, s) ∈ [(0, [1]), (2, [3]), (5, [9])] ∧
        k ∈ get_subclasses (KindTree.node 0 [KindTree.node 2 []]) ∧ 3 ∈ s) ∧
    (3 ∈ get_actors_generator [(0, [1]), (2, [3]), (5, [9])] none ↔
      ∃ k s, (k, s) ∈ [(0, [1]), (2, [3]), (5, [9])] ∧ 3 ∈ s)) :=
  query_by_kind_polymorphic [(0, [1]), (2, [3]), (5, [9])]
    (KindTree.node 0 [KindTree.node 2 []]) 3 (by decide)

/-! ### Spatial queries (`actor.py`) -/

/-- The data of an actor the spatial queries read: its identity (used for
hashing/equality) and its stored cell position. -/
structure ActorRec where
  id : Nat
  x : ℤ
  y : ℤ
deriving DecidableEq

/-- `Actor.get_actors_in_range_generator(self, radius, type_)`:
iterate `self.get_world().get_actors_generator(type_)` and yield each `a`
with `dx*dx + dy*dy <= radius ** 2` where `dx = a.x - self.x`,
`dy = a.y - self.y`. -/
def get_actors_in_range_generator (objects : List (Nat × List ActorRec))
    (type_ : Option KindTree) (self : ActorRec) (radius : ℤ) : List ActorRec :=
  (get_actors_generator objects type_).filter
    (fun a => decide ((a.x - self.x) * (a.x - self.x) +
      (a.y - self.y) * (a.y - self.y) ≤ radius ^ 2))

/-- `Actor.get_neighbours_generator(self, cells, diagonal, type_)`:
`if diagonal: yield from self.get_actors_in_range(cells * self.get_world().cell_size, type_)`
`else:` yield each registered `a` with
`abs(a.x - self.x) <= cells or abs(a.y - self.y) <= cells`. -/
def get_neighbours_generator (objects : List (Nat × List ActorRec))
    (cell_size : ℤ) (type_ : Option KindTree) (self : ActorRec) (cells : ℤ)
    (diagonal : Bool) : List ActorRec :=
  if diagonal then
    get_actors_in_range_generator objects type_ self (cells * cell_size)
  else
    (get_actors_generator objects type_).filter
      (fun a => decide (|a.x - self.x| ≤ cells) || decide (|a.y - self.y| ≤ cells))

/-- C5: with `diagonal = false` the neighbour query returns exactly the
registered actors of the requested kind satisfying the *disjunction*
`|dx| ≤ cells ∨ |dy| ≤ cells` (OR, not AND) — in particular an actor at
offset `(5, 0)` from `self` is returned for `cells = 2` —, and with
`diagonal = true` the query is literally the in-range query with radius
`cells * cell_size`. -/
theorem neighbours_or_semantics (objects : List (Nat × List ActorRec))
    (cell_size : ℤ) (type_ : Option KindTree) (self : ActorRec) (cells : ℤ) :
    (∀ a, a ∈ get_neighbours_generator objects cell_size type_ self cells false ↔
      a ∈ get_actors_generator objects type_ ∧
        (|a.x - self.x| ≤ cells ∨ |a.y - self.y| ≤ cells)) ∧
    get_neighbours_generator objects cell_size type_ self cells true
      = get_actors_in_range_generator objects type_ self (cells * cell_size) ∧
    (⟨1, 5, 0⟩ : ActorRec) ∈ get_neighbours_generator
      [(0, [⟨0, 0, 0⟩, ⟨1, 5, 0⟩])] 40 none ⟨0, 0, 0⟩ 2 false := by
  refine ⟨fun a => ?_, rfl, by decide⟩
  simp [get_neighbours_generator, List.mem_filter]

/-- C9: the in-range query does not exclude the queried actor itself: for
any radius `r ≥ 0`, whenever `self` is among the actors the kind filter
yields, `self` is in its own `get_actors_in_range` result, because the
self-distance `0` satisfies `0 ≤ r²`. -/
theorem in_range_includes_self (objects : List (Nat × List ActorRec))
    (type_ : Option KindTree) (self : ActorRec) (radius : ℤ)
    (_hr : 0 ≤ radius) (hs : self ∈ get_actors_generator objects type_) :
    self ∈ get_actors_in_range_generator objects type_ self radius := by
  unfold get_actors_in_range_generator
  refine List.mem_filter.mpr ⟨hs, ?_⟩
  simp only [sub_self, mul_zero, add_zero, decide_eq_true_eq]
  positivity

/-- C9 witness: an actor of kind `0` at `(3, 4)` querying with radius `0`
and its own kind still finds itself. -/
theorem in_range_includes_self_witness :
    (⟨0, 3, 4⟩ : ActorRec) ∈ get_actors_in_range_generator
      [(0, [⟨0, 3, 4⟩])] (some (KindTree.node 0 [])) ⟨0, 3, 4⟩ 0 :=
  in_range_includes_self [(0, [⟨0, 3, 4⟩])] (some (KindTree.node 0 []))
    ⟨0, 3, 4⟩ 0 (by decide) (by decide)

/-! ### Scrollbar geometry (`application.py`, `__make_scrollbar_x` / `__make_scrollbar_y`)

The two axis passes are structurally identical (widths / `vr.x` /
`__delta_move.x` versus heights / `hr.y` / `__delta_move.y`), so the
per-axis arithmetic is modelled once with axis-neutral names and each pass
is a separate definition over it. -/

/-- The state an axis scrollbar pass writes: the thumb's length along its
axis (`vr.width` resp. `hr.height`), the clamped thumb position (`vr.x`
resp. `hr.y`) and the pan offset stored into `__delta_move`. -/
structure ScrollbarState where
  thumb_length : ℤ
  thumb_pos : ℤ
  delta_move : ℚ
deriving DecidableEq

/-- `fraction_width = screen_width / (world_surf.get_width() + screen_width)`
(resp. `fraction_height`), computed in float arithmetic, modelled in `ℚ`. -/
def scroll_fraction (canvas window : ℤ) : ℚ :=
  (window : ℚ) / ((canvas : ℚ) + (window : ℚ))

/-- `vr.width = int(fraction_width * screen_width)` (resp. `hr.height`).
Python's `int()` truncates toward zero; the operand is nonnegative for the
pixel sizes that reach this code, where truncation is the floor. -/
def thumb_length (canvas window : ℤ) : ℤ :=
  ⌊scroll_fraction canvas window * (window : ℚ)⌋

/-- `xmax = screen_width - vr.width` (resp. `ymax`). -/
def track_max (canvas window : ℤ) : ℤ :=
  window - thumb_length canvas window

/-- `vr.x = limit_value(vr.x, 0, xmax)` (resp. `hr.y`): the incoming drag
position `pos0` clamped to the track. -/
def thumb_pos (canvas window pos0 : ℤ) : ℤ :=
  limit_value pos0 0 (track_max canvas window)

/-- `self.__delta_move.x = -vr.x / xmax * (world_surf.get_width() - screen_width)`
(resp. `__delta_move.y`). -/
def scroll_delta (canvas window pos0 : ℤ) : ℚ :=
  -(thumb_pos canvas window pos0 : ℚ) / (track_max canvas window : ℚ) *
    ((canvas : ℚ) - (window : ℚ))

/-- `Application.__make_scrollbar_x(self, world_surf, screen_width)` body
(under its `self.__scrollbar[0] or force` caller guard): the early return
when `fraction_width >= 1` leaves the previous scrollbar state untouched
(`none`); otherwise the thumb rectangle and the pan offset are updated. -/
def make_scrollbar_x (world_width screen_width x0 : ℤ) : Option ScrollbarState :=
  if 1 ≤ scroll_fraction world_width screen_width then none
  else some ⟨thumb_length world_width screen_width,
    thumb_pos world_width screen_width x0,
    scroll_delta world_width screen_width x0⟩

/-- `Application.__make_scrollbar_y(self, world_surf, screen_height)`:
the vertical pass, identical to the horizontal one with heights in place
of widths. -/
def make_scrollbar_y (world_height screen_height y0 : ℤ) : Option ScrollbarState :=
  if 1 ≤ scroll_fraction world_height screen_height then none
  else some ⟨thumb_length world_height screen_height,
    thumb_pos world_height screen_height y0,
    scroll_delta world_height screen_height y0⟩

lemma scroll_fraction_lt_one (c w : ℤ) (hw : 0 < w) (hc : w < c) :
    scroll_fraction c w < 1 := by
  have hw' : (0 : ℚ) < (w : ℚ) := by exact_mod_cast hw
  have hc' : (w : ℚ) < (c : ℚ) := by exact_mod_cast hc
  unfold scroll_fraction
  rw [div_lt_one (by linarith)]
  linarith

lemma thumb_length_lt (c w : ℤ) (hw : 0 < w) (hc : w < c) :
    thumb_length c w < w := by
  unfold thumb_length
  rw [Int.floor_lt]
  calc scroll_fraction c w * (w : ℚ) < 1 * (w : ℚ) :=
        mul_lt_mul_of_pos_right (scroll_fraction_lt_one c w hw hc)
          (by exact_mod_cast hw)
    _ = (w : ℚ) := one_mul _

lemma track_max_pos (c w : ℤ) (hw : 0 < w) (hc : w < c) :
    0 < track_max c w := by
  have := thumb_length_lt c w hw hc
  unfold track_max
  omega

/-- C8 amended: when a scrollbar is needed on an axis (`window < canvas`,
both positive), the pass updates the state (no early return), the thumb
length is the *truncation to whole pixels* of
`window * (window / (canvas + window))`, the thumb position is clamped to
`[0, track − thumb]`, the pan offset is
`−pos / (track − thumb) · (canvas − window)`, its magnitude never exceeds
`canvas − window`, and a thumb at (or beyond) its rightmost limit yields
the offset `−(canvas − window)` exactly, making the far canvas edge
visible.  Both axis passes satisfy this. -/
theorem scrollbar_geometry (c w p0 : ℤ) (hw : 0 < w) (hc : w < c) :
    ∃ r : ScrollbarState,
      make_scrollbar_x c w p0 = some r ∧
      make_scrollbar_y c w p0 = some r ∧
      r.thumb_length = ⌊(w : ℚ) * ((w : ℚ) / ((c : ℚ) + (w : ℚ)))⌋ ∧
      0 ≤ r.thumb_pos ∧ r.thumb_pos ≤ w - r.thumb_length ∧
      r.delta_move =
        -(r.thumb_pos : ℚ) / ((w : ℚ) - (r.thumb_length : ℚ)) * ((c : ℚ) - (w : ℚ)) ∧
      |r.delta_move| ≤ (c : ℚ) - (w : ℚ) ∧
      (w - r.thumb_length ≤ p0 → r.delta_move = -((c : ℚ) - (w : ℚ))) := by
  have hfrac := scroll_fraction_lt_one c w hw hc
  have htm := track_max_pos c w hw hc
  have hmem := limit_value_mem p0 0 (track_max c w) (le_of_lt htm)
  have hx0 : (0 : ℚ) ≤ (thumb_pos c w p0 : ℚ) := by exact_mod_cast hmem.1
  have hxm : (thumb_pos c w p0 : ℚ) ≤ (track_max c w : ℚ) := by exact_mod_cast hmem.2
  have hm : (0 : ℚ) < (track_max c w : ℚ) := by exact_mod_cast htm
  have hD : (0 : ℚ) < (c : ℚ) - (w : ℚ) := by
    have : (w : ℚ) < (c : ℚ) := by exact_mod_cast hc
    linarith
  have htrackcast : ((track_max c w : ℤ) : ℚ) = (w : ℚ) - (thumb_length c w : ℚ) := by
    unfold track_max
    push_cast
    ring
  refine ⟨⟨thumb_length c w, thumb_pos c w p0, scroll_delta c w p0⟩,
    ?_, ?_, ?_, hmem.1, ?_, ?_, ?_, ?_⟩
  · unfold make_scrollbar_x
    rw [if_neg (not_le.mpr hfrac)]
  · unfold make_scrollbar_y
    rw [if_neg (not_le.mpr hfrac)]
  · show thumb_length c w = _
    unfold thumb_length scroll_fraction
    congr 1
    ring
  · show thumb_pos c w p0 ≤ w - thumb_length c w
    have := hmem.2
    unfold track_max at this
    exact this
  · show scroll_delta c w p0 = _
    unfold scroll_delta
    rw [htrackcast]
  · show |scroll_delta c w p0| ≤ _
    unfold scroll_delta
    rw [neg_div, neg_mul, abs_neg, abs_mul, abs_div,
      abs_of_nonneg hx0, abs_of_nonneg (le_of_lt hm), abs_of_nonneg (le_of_lt hD)]
    calc (thumb_pos c w p0 : ℚ) / (track_max c w : ℚ) * ((c : ℚ) - (w : ℚ))
        ≤ 1 * ((c : ℚ) - (w : ℚ)) :=
          mul_le_mul_of_nonneg_right ((div_le_one hm).mpr hxm) (le_of_lt hD)
      _ = (c : ℚ) - (w : ℚ) := one_mul _
  · intro hp
    show scroll_delta c w p0 = _
    have hp2 : w - thumb_length c w ≤ p0 := hp
    have hpos : thumb_pos c w p0 = track_max c w := by
      have hp' : track_max c w ≤ p0 := by
        unfold track_max
        omega
      unfold thumb_pos limit_value
      split_ifs <;> omega
    unfold scroll_delta
    rw [hpos, neg_div, div_self (ne_of_gt hm), neg_one_mul]

/-- C8 amended witness: Scenario D's horizontal axis — canvas 2000 px,
window 800 px, the thumb dragged far past the right end of its track: the
pass updates both axes' state, the thumb is 228 px long (the truncated
proportional length), sits clamped at the track end, and the pan offset is
exactly `-(2000 - 800)`, exposing the rightmost canvas column. -/
theorem scrollbar_geometry_witness :
    ∃ r : ScrollbarState,
      make_scrollbar_x 2000 800 10000 = some r ∧
      make_scrollbar_y 2000 800 10000 = some r ∧
      r.thumb_length =
        ⌊((800 : ℤ) : ℚ) * (((800 : ℤ) : ℚ) / (((2000 : ℤ) : ℚ) + ((800 : ℤ) : ℚ)))⌋ ∧
      0 ≤ r.thumb_pos ∧ r.thumb_pos ≤ 800 - r.thumb_length ∧
      r.delta_move =
        -(r.thumb_pos : ℚ) / (((800 : ℤ) : ℚ) - (r.thumb_length : ℚ)) *
          (((2000 : ℤ) : ℚ) - ((800 : ℤ) : ℚ)) ∧
      |r.delta_move| ≤ ((2000 : ℤ) : ℚ) - ((800 : ℤ) : ℚ) ∧
      ((800 : ℤ) - r.thumb_length ≤ 10000 →
        r.delta_move = -(((2000 : ℤ) : ℚ) - ((800 : ℤ) : ℚ))) :=
  scrollbar_geometry 2000 800 10000 (by decide) (by decide)

/-- C8 counterexample: with canvas 2000 px and window 800 px the code's
thumb length is `int(800 * 800 / 2800) = 228` pixels, which is *not* equal
to the claim's exact value `800 * (800 / (2000 + 800)) = 1600/7 ≈ 228.57`:
the proportional formula only holds after truncation to a whole pixel
count. -/
theorem scrollbar_thumb_truncates :
    make_scrollbar_x 2000 800 0 = some ⟨228, 0, 0⟩ ∧
    ((228 : ℚ) ≠ (800 : ℚ) * ((800 : ℚ) / ((2000 : ℚ) + (800 : ℚ)))) := by
  have hlen : thumb_length 2000 800 = 228 := by
    unfold thumb_length scroll_fraction
    rw [Int.floor_eq_iff]
    norm_num
  have htrack : track_max 2000 800 = 572 := by
    unfold track_max
    rw [hlen]
    decide
  have hpos : thumb_pos 2000 800 0 = 0 := by
    unfold thumb_pos
    rw [htrack]
    decide
  have hdelta : scroll_delta 2000 800 0 = 0 := by
    unfold scroll_delta
    rw [hpos]
    norm_num
  constructor
  · unfold make_scrollbar_x
    rw [if_neg (by unfold scroll_fraction; norm_num), hlen, hpos, hdelta]
  · norm_num

end PyGreenfoot
